import Mathlib

/-!
Verification of the tiered conversational-memory store and dialogue
coordinator of the RolePlay-Agent repository.

The Python sources (`roleplay/core/memory.py`, `agent.py`, `scene.py`,
`message.py`) are shallowly embedded below.  Modelling conventions:

* Python floats become exact rationals (`ℚ`); the properties proved here
  concern ordering and bounds, not floating-point rounding.
* `datetime.now()` and `uuid4()` are modelled by a logical clock field
  on the store (`Memory.clock`), incremented once per insertion; it
  serves as both the insertion timestamp and the fresh memory id.
* Python exceptions are modelled as an explicit `Bool` success flag;
  the state returned next to a `false` flag is the partially mutated
  state the exception leaves behind.
* `dict` / `defaultdict` become association lists with explicit
  update functions.
-/

namespace RolePlay

/-- `MessageType` from `message.py`. -/
inductive MessageType
  | chat
  | emotion
  | action
  | thought
  | system
  | narrative
deriving DecidableEq

/-- `MessagePriority` from `message.py`. -/
inductive MessagePriority
  | low
  | normal
  | high
  | urgent
deriving DecidableEq

/-- `MessageMetadata` from `message.py` (`custom_data` and the two
datetime fields are irrelevant to every claim and omitted). -/
structure MessageMetadata where
  type : MessageType := .chat
  priority : MessagePriority := .normal
  emotion_tags : List String := []
  topic_tags : List String := []
deriving DecidableEq

/-- `Message` from `message.py`; ids and timestamps are logical `Nat`
ticks (see the module comment). -/
structure Message where
  sender : String
  content : String
  timestamp : Nat := 0
  receiver : Option String := none
  message_id : Nat := 0
  metadata : MessageMetadata := {}
  thread_id : Option Nat := none
  reference_ids : List Nat := []
deriving DecidableEq

/-- `Message.__post_init__` defaults `thread_id` to the message id. -/
def mkMessage (sender content : String) (mid : Nat)
    (receiver : Option String := none) (metadata : MessageMetadata := {}) : Message :=
  { sender, content, timestamp := mid, receiver, message_id := mid,
    metadata, thread_id := some mid }

/-- The `metadata` dict snapshot stored in a `MemoryItem`
(`memory.py` lines 79-84). -/
structure ItemMetadata where
  sender : String
  receiver : Option String
  type : MessageType
  priority : MessagePriority
deriving DecidableEq

/-- `MemoryItem` from `memory.py`. -/
structure MemoryItem where
  content : Message
  timestamp : Nat
  importance : ℚ
  metadata : ItemMetadata
  tags : List String
  reference_count : Nat := 0
  last_accessed : Nat
  memory_id : Nat
deriving DecidableEq

/-- Append `v` to the bucket of key `k` of an association-list index
(`defaultdict(list)` followed by `.append`). -/
def bucketAdd {κ : Type} [DecidableEq κ] :
    List (κ × List Nat) → κ → Nat → List (κ × List Nat)
  | [], k, v => [(k, [v])]
  | (k₀, vs) :: rest, k, v =>
    if k = k₀ then (k₀, vs ++ [v]) :: rest else (k₀, vs) :: bucketAdd rest k v

/-- Read the bucket of key `k` (missing key reads as `[]`, as with
`defaultdict(list)`). -/
def bucketGet {κ : Type} [DecidableEq κ] : List (κ × List Nat) → κ → List Nat
  | [], _ => []
  | (k₀, vs) :: rest, k => if k = k₀ then vs else bucketGet rest k

/-- Increment the counter of key `k` (`defaultdict(int)` and
`dict.get(k, 0) + 1`). -/
def countAdd {κ : Type} [DecidableEq κ] : List (κ × Nat) → κ → List (κ × Nat)
  | [], k => [(k, 1)]
  | (k₀, n) :: rest, k =>
    if k = k₀ then (k₀, n + 1) :: rest else (k₀, n) :: countAdd rest k

/-- Overwrite the value of key `k` (`d[k] = v`). -/
def assocSet {κ ν : Type} [DecidableEq κ] : List (κ × ν) → κ → ν → List (κ × ν)
  | [], k, v => [(k, v)]
  | (k₀, v₀) :: rest, k, v =>
    if k = k₀ then (k₀, v) :: rest else (k₀, v₀) :: assocSet rest k v

/-- `Memory` from `memory.py`: the three tiers, the configuration, the
three indices, the id map and the stats counters, plus the logical
clock standing in for `datetime.now` and `uuid4`. -/
structure Memory where
  working_memory : List MemoryItem := []
  short_term : List MemoryItem := []
  long_term : List MemoryItem := []
  working_memory_limit : Nat := 5
  short_term_limit : Nat := 20
  long_term_limit : Nat := 100
  importance_threshold : ℚ := 7/10
  keyword_index : List (String × List Nat) := []
  temporal_index : List (Nat × List Nat) := []
  type_index : List (MessageType × List Nat) := []
  memory_map : List (Nat × MemoryItem) := []
  total_memories : Nat := 0
  forgotten_memories : Nat := 0
  consolidation_count : Nat := 0
  memory_types : List (MessageType × Nat) := []
  clock : Nat := 0
deriving DecidableEq

/-- Boolean substring test on character lists, used to embed the
`topic in content` checks of `Memory._extract_tags`. -/
def listContains (haystack needle : List Char) : Bool :=
  match haystack with
  | [] => needle.isEmpty
  | c :: rest => List.isPrefixOf needle (c :: rest) || listContains rest needle

/-- The hard-coded topic list of `Memory._extract_tags`. -/
def commonTopics : List String :=
  ["测试", "问题", "想法", "计划", "决定", "任务", "建议", "情感", "帮助", "总结"]

/-- `Memory._extract_tags`. -/
def extractTags (content : String) : List String :=
  commonTopics.filter fun topic => listContains content.toList topic.toList

/-- The `MemoryItem` built at the top of `Memory.add_message`
(lines 75-86); the current clock tick plays the role of
`datetime.now()` (both `timestamp` and `last_accessed`) and of the
fresh `uuid4` id. -/
def mkMemoryItem (m : Memory) (msg : Message) (importance : ℚ) : MemoryItem :=
  { content := msg,
    timestamp := m.clock,
    importance := importance,
    metadata := { sender := msg.sender, receiver := msg.receiver,
                  type := msg.metadata.type, priority := msg.metadata.priority },
    tags := extractTags msg.content,
    reference_count := 0,
    last_accessed := m.clock,
    memory_id := m.clock }

/-- The sort key of `Memory._consolidate_memories`
(`x.importance * 0.7 + x.reference_count * 0.3`). -/
def memScore (it : MemoryItem) : ℚ :=
  it.importance * (7/10) + (it.reference_count : ℚ) * (3/10)

/-- Insert `x` into a list sorted descending by `key`, after every
element with a strictly larger key and before every element with a key
less than or equal to it.  Folding this over the input reproduces a
stable descending sort, which is exactly what Python
`list.sort(key=..., reverse=True)` computes. -/
def insertDescBy {α β : Type} [LinearOrder β] (key : α → β) (x : α) :
    List α → List α
  | [] => [x]
  | y :: ys => if key x < key y then y :: insertDescBy key x ys else x :: y :: ys

/-- Stable descending sort by `key` (the model of Python
`list.sort(key=..., reverse=True)`; any two stable sorts by the same
key agree, so insertion sort is a faithful model of timsort here). -/
def stableSortDescBy {α β : Type} [LinearOrder β] (key : α → β) :
    List α → List α
  | [] => []
  | x :: xs => insertDescBy key x (stableSortDescBy key xs)

/-- `Memory._consolidate_memories` (lines 136-154): sort short-term by
the weighted score descending, move the first `short_term_limit // 2`
items into long-term (with no capacity check on long-term), keep the
same slice as the new short-term, count the rest as forgotten. -/
def consolidateMemories (m : Memory) : Memory :=
  let sorted := stableSortDescBy memScore m.short_term
  let k := m.short_term_limit / 2
  { m with
    short_term := sorted.take k,
    long_term := m.long_term ++ sorted.take k,
    forgotten_memories := m.forgotten_memories + (sorted.drop k).length,
    consolidation_count := m.consolidation_count + 1 }

/-- `Memory._consolidate_working_memory` (lines 128-134). -/
def consolidateWorkingMemory (m : Memory) : Memory :=
  let m := { m with short_term := m.short_term ++ m.working_memory,
                    working_memory := [] }
  if m.short_term.length > m.short_term_limit then consolidateMemories m else m

/-- `Memory._add_to_long_term` (lines 122-126).  When the append pushes
long-term past its limit the code calls `self._forget_least_important()`,
a method that is not defined anywhere in the repository, so Python
raises `AttributeError` at that point; the `false` flag models the
exception, paired with the state the exception leaves behind. -/
def addToLongTerm (m : Memory) (it : MemoryItem) : Memory × Bool :=
  let m := { m with long_term := m.long_term ++ [it] }
  if m.long_term.length > m.long_term_limit then (m, false) else (m, true)

/-- `Memory._update_indices` (lines 108-120). -/
def updateIndices (m : Memory) (it : MemoryItem) : Memory :=
  let kw := it.tags.foldl (fun idx tag => bucketAdd idx tag it.memory_id) m.keyword_index
  let m := { m with keyword_index := kw }
  let m := { m with temporal_index := bucketAdd m.temporal_index it.timestamp it.memory_id }
  { m with type_index := bucketAdd m.type_index it.metadata.type it.memory_id }

/-- The tail of `Memory.add_message` (lines 104-106): update the
indices, then increment `total_memories`. -/
def finishAdd (m : Memory) (it : MemoryItem) : Memory :=
  let m := updateIndices m it
  { m with total_memories := m.total_memories + 1 }

/-- The placement block of `Memory.add_message` (lines 95-102): high
importance goes straight to long-term (where the overflow path
raises), otherwise the item is appended to working memory, possibly
after consolidating working memory into short-term. -/
def placeItem (m : Memory) (it : MemoryItem) (importance : ℚ) : Memory × Bool :=
  if m.importance_threshold ≤ importance then
    addToLongTerm m it
  else if m.working_memory.length < m.working_memory_limit then
    ({ m with working_memory := m.working_memory ++ [it] }, true)
  else
    let m := consolidateWorkingMemory m
    ({ m with working_memory := m.working_memory ++ [it] }, true)

/-- `Memory.add_message` (lines 73-106).  The success flag is `false`
exactly when `_add_to_long_term` raises; the exception propagates, so
in that case the index update and the `total_memories` increment
(which come after the placement in the source) never run, while the
mutations already performed (memory map, type stats, the long-term
append) persist. -/
def addMessage (m₀ : Memory) (msg : Message) (importance : ℚ) : Memory × Bool :=
  let it := mkMemoryItem m₀ msg importance
  let mm := m₀.memory_map ++ [(it.memory_id, it)]
  let mt := countAdd m₀.memory_types msg.metadata.type
  let m := { m₀ with memory_map := mm, memory_types := mt, clock := m₀.clock + 1 }
  let r := placeItem m it importance
  if r.2 then (finishAdd r.1 it, true) else (r.1, false)

/-- A sequence of `add_message` calls, threading the store state (also
past a raising call, as the caller keeps the partially mutated object)
and conjoining the success flags. -/
def runAdds (m : Memory) : List (Message × ℚ) → Memory × Bool
  | [] => (m, true)
  | p :: rest =>
    ((runAdds (addMessage m p.1 p.2).1 rest).1,
     (addMessage m p.1 p.2).2 && (runAdds (addMessage m p.1 p.2).1 rest).2)

/-- All items currently stored in some tier. -/
def tierItems (m : Memory) : List MemoryItem :=
  m.working_memory ++ m.short_term ++ m.long_term

/-- The memory ids currently stored in some tier. -/
def tierIds (m : Memory) : List Nat :=
  (tierItems m).map fun it => it.memory_id

/-- Index consistency in the direction the code maintains: every item
present in a tier is indexed in the type-index bucket of its type. -/
def IndexedInv (m : Memory) : Prop :=
  ∀ it ∈ tierItems m, it.memory_id ∈ bucketGet m.type_index it.metadata.type

/-- Modelled from the spec: `Memory.get_recent_context` is invoked at
`agent.py` line 240 but defined nowhere in the repository.  Spec §4.1:
`recent(n)` is drawn from all tiers combined, sorted by insertion
timestamp descending with ties broken stably by insertion order, then
reversed to chronological order; `n <= 0` yields an empty sequence. -/
def getRecentItems (m : Memory) (n : Int) : List MemoryItem :=
  ((stableSortDescBy (fun it => it.timestamp) (tierItems m)).take n.toNat).reverse

/-- Modelled from the spec: the message view of `getRecentItems`
(the spec has `recent(n)` return messages). -/
def getRecentContext (m : Memory) (n : Int) : List Message :=
  (getRecentItems m n).map fun it => it.content

/-- `AgentState` from `agent.py`. -/
inductive AgentState
  | idle
  | active
  | thinking
  | speaking
  | listening
  | paused
  | stopped
  | error
deriving DecidableEq

/-- `AgentContext` from `agent.py`. -/
structure AgentContext where
  current_topic : Option String := none
  conversation_depth : Nat := 0
  last_speaker : Option String := none
  interaction_count : List (String × Nat) := []
  last_emotions : List (String × String) := []
  conversation_history : List String := []
deriving DecidableEq

/-- The JSON object `Agent._analyze_emotion` parses out of the LLM
reply: the fields `_evaluate_message_importance` reads
(`emotion`, absent keys reading as missing, and `intensity`, an absent
key reading as `0` via `.get("intensity", 0)`). -/
structure EmotionAnalysis where
  emotion : Option String := none
  intensity : ℚ := 0
deriving DecidableEq

/-- `Agent` from `agent.py`, restricted to the fields the claims
reach: the role name, the state machine, the rolling context, the
owned memory store and whether an LLM is configured. -/
structure Agent where
  name : String
  state : AgentState := .idle
  context : AgentContext := {}
  memory : Memory := {}
  hasLLM : Bool := false
deriving DecidableEq

/-- `AgentContext.update_interaction`. -/
def updateInteraction (c : AgentContext) (agent_name : String)
    (emotion : Option String) : AgentContext :=
  let le := match emotion with
    | some e => assocSet c.last_emotions agent_name e
    | none => c.last_emotions
  { c with interaction_count := countAdd c.interaction_count agent_name,
           last_speaker := some agent_name,
           last_emotions := le }

/-- `Agent._update_context` (lines 176-188). -/
def updateContext (c : AgentContext) (selfName : String) (msg : Message) : AgentContext :=
  let c :=
    if msg.sender ≠ selfName then
      let c := updateInteraction c msg.sender msg.metadata.emotion_tags.head?
      { c with conversation_depth := c.conversation_depth + 1 }
    else c
  match msg.metadata.topic_tags.head? with
  | some t => { c with current_topic := some t,
                       conversation_history := c.conversation_history ++ [t] }
  | none => c

/-- The `priority_weights` table of `Agent._evaluate_message_importance`. -/
def priorityWeight : MessagePriority → ℚ
  | .low => -(1/10)
  | .normal => 0
  | .high => 2/10
  | .urgent => 3/10

/-- The `type_weights` table of `Agent._evaluate_message_importance`
(`.get(type, 0)` reads missing types as `0`). -/
def typeWeight : MessageType → ℚ
  | .emotion => 15/100
  | .action => 1/10
  | .system => 2/10
  | .thought => 1/10
  | _ => 0

/-- `Agent._evaluate_message_importance` (lines 190-230).  The outcome
of the LLM emotion analysis is passed in as `analysis` (`none` models
both a missing LLM and a failed analysis, whose exception the source
catches and ignores).  Note that a successful analysis with an
`emotion` key mutates the incoming message by appending to its
`metadata.emotion_tags`; the returned message is that mutated object. -/
def evaluateMessageImportance (analysis : Option EmotionAnalysis)
    (selfName : String) (msg : Message) : Message × ℚ :=
  let importance : ℚ := 1/2
  let (msg, importance) :=
    match analysis with
    | some a =>
      let importance := importance + a.intensity * (3/10)
      let msg :=
        match a.emotion with
        | some e =>
          { msg with metadata :=
            { msg.metadata with emotion_tags := msg.metadata.emotion_tags ++ [e] } }
        | none => msg
      (msg, importance)
    | none => (msg, importance)
  let importance := importance + priorityWeight msg.metadata.priority
  let importance := importance + typeWeight msg.metadata.type
  let importance := if msg.receiver = some selfName then importance + 2/10 else importance
  (msg, max (1/10) (min 1 importance))

/-- `Agent._generate_response` (lines 232-267): with no LLM it returns
`None`; with an LLM its `try` block first calls
`self.memory.get_recent_context(5)`, a method defined nowhere in the
repository, so `AttributeError` is raised, caught by the local
`except`, and `None` is returned.  Hence every path returns `None`. -/
def generateResponse (_a : Agent) (_msg : Message) : Option String :=
  none

/-- `Agent.receive_message` (lines 131-174), with the per-agent lock
elided (calls are serialized, so the embedding is the sequential
body).  Control flow of the source: the `try` body returns early when
the state is `STOPPED`; an exception from `add_message` is caught by
the `except` clause which sets the state to `ERROR` and returns
`None`; and in BOTH cases the `finally` clause still runs, resetting
any non-`ERROR` state (including `STOPPED`) to `IDLE`.  Because
`_generate_response` always returns `None`, the reply-storing branch
(lines 161-163) is dead code. -/
def receiveMessage (a : Agent) (analysis : Option EmotionAnalysis)
    (msg : Message) : Agent × Option String :=
  if a.state = .stopped then
    ({ a with state := .idle }, none)
  else
    let a := { a with state := .listening }
    let a := { a with context := updateContext a.context a.name msg }
    let r := evaluateMessageImportance (if a.hasLLM then analysis else none) a.name msg
    let r2 := addMessage a.memory r.1 r.2
    let a := { a with memory := r2.1 }
    if r2.2 = false then
      ({ a with state := .error }, none)
    else
      let a := { a with state := .thinking }
      let response := generateResponse a msg
      ({ a with state := .idle }, response)

/-- The observable outcome of one fan-out task of
`Scene._broadcast_async`: the task either completed before the
deadline with the value `receive_message` returned, raised inside
`receive_message` (the exception is caught by
`Scene._get_character_response`), or was still pending at the deadline
and was cancelled. -/
inductive TaskOutcome
  | replied (r : Option String)
  | raised
  | timedOut
deriving DecidableEq

/-- `Scene._broadcast_async` eligibility filter (lines 115-117): every
character other than the sender, narrowed to the explicit receiver
when the message names one. -/
def eligible (sender : String) (receiver : Option String) (name : String) : Bool :=
  name ≠ sender && (receiver = none || receiver = some name)

/-- The per-participant collection step of `Scene._broadcast_async`
(lines 131-138 together with `_get_character_response`, lines
168-177): a completed task contributes `responses[name] = response`
only when the response is truthy (neither `None` nor the empty
string); a raised task completed with `None` (the catch in
`_get_character_response`); a cancelled task contributes nothing. -/
def collectResponse (sender : String) (receiver : Option String) :
    String × TaskOutcome → Option (String × String)
  | (name, outcome) =>
    if eligible sender receiver name then
      match outcome with
      | .replied (some r) => if r ≠ "" then some (name, r) else none
      | .replied none => none
      | .raised => none
      | .timedOut => none
    else none

/-- `Scene._broadcast_async` (lines 112-151) over the abstract task
outcomes: the returned name-to-reply map, as an association list over
the character list. -/
def broadcastAsync (chars : List (String × TaskOutcome)) (sender : String)
    (receiver : Option String) : List (String × String) :=
  chars.filterMap (collectResponse sender receiver)

/-- Python slice `l[s:]` for a possibly negative start `s`. -/
def pySliceFrom (s : Int) (l : List Message) : List Message :=
  if 0 ≤ s then l.drop s.toNat
  else l.drop (l.length - min (-s).toNat l.length)

/-- The participant filter of `Scene.get_dialogue_history` (lines
190-194).  Python truthiness: `if character_name:` skips the filter
for `None` and for the empty string. -/
def filterByCharacter (history : List Message) (character_name : Option String) :
    List Message :=
  match character_name with
  | some c =>
    if c ≠ "" then
      history.filter fun msg => msg.sender == c || msg.receiver == some c
    else history
  | none => history

/-- `Scene.get_dialogue_history` (lines 185-197).  Python truthiness
again: `if limit:` skips the slice for `None` and for `0`; otherwise
the code evaluates `history[-limit:]`. -/
def getDialogueHistory (history : List Message) (limit : Option Int)
    (character_name : Option String) : List Message :=
  let history := filterByCharacter history character_name
  match limit with
  | some l => if l ≠ 0 then pySliceFrom (-l) history else history
  | none => history

/-! Concrete fixtures used by the counterexample and evaluation
theorems below. -/

/-- A plain chat message (`Message(sender="Alice", content="hello")`). -/
def msgA : Message := mkMessage "Alice" "hello" 0

/-- `Memory(working_memory_limit=1, short_term_limit=2, long_term_limit=1)`. -/
def memC1 : Memory :=
  { working_memory_limit := 1, short_term_limit := 2, long_term_limit := 1 }

/-- Six low-importance inserts of the chat message. -/
def inputsC1 : List (Message × ℚ) :=
  [(msgA, 0), (msgA, 0), (msgA, 0), (msgA, 0), (msgA, 0), (msgA, 0)]

/-- `Memory(long_term_limit=1)`. -/
def memC2 : Memory := { long_term_limit := 1 }

/-- Two inserts at importance `0.9`, above the `0.7` threshold. -/
def inputsC2 : List (Message × ℚ) := [(msgA, 9/10), (msgA, 9/10)]

/-- `Memory(working_memory_limit=1, short_term_limit=2)`. -/
def memC3 : Memory := { working_memory_limit := 1, short_term_limit := 2 }

/-- Four low-importance inserts of the chat message. -/
def inputsC3 : List (Message × ℚ) := [(msgA, 0), (msgA, 0), (msgA, 0), (msgA, 0)]

/-- An agent whose state has been set to `STOPPED`. -/
def stoppedAgent : Agent := { name := "Bob", state := .stopped }

/-! Lemmas about the stable descending sort. -/

theorem mem_insertDescBy {α β : Type} [LinearOrder β] (key : α → β) (x a : α)
    (l : List α) : a ∈ insertDescBy key x l ↔ a = x ∨ a ∈ l := by
  induction l with
  | nil => simp [insertDescBy]
  | cons y ys ih =>
    simp only [insertDescBy]
    split
    · simp only [List.mem_cons, ih]
      tauto
    · simp [List.mem_cons]

theorem perm_insertDescBy {α β : Type} [LinearOrder β] (key : α → β) (x : α)
    (l : List α) : (insertDescBy key x l).Perm (x :: l) := by
  induction l with
  | nil => simp [insertDescBy]
  | cons y ys ih =>
    simp only [insertDescBy]
    split
    · exact (ih.cons y).trans (List.Perm.swap x y ys)
    · exact List.Perm.refl _

theorem pairwise_insertDescBy {α β : Type} [LinearOrder β] (key : α → β) (x : α)
    (l : List α) (h : l.Pairwise fun a b => key b ≤ key a) :
    (insertDescBy key x l).Pairwise fun a b => key b ≤ key a := by
  induction l with
  | nil => simp [insertDescBy]
  | cons y ys ih =>
    rw [List.pairwise_cons] at h
    obtain ⟨hy, hys⟩ := h
    simp only [insertDescBy]
    split
    · rename_i hlt
      rw [List.pairwise_cons]
      refine ⟨fun b hb => ?_, ih hys⟩
      rcases (mem_insertDescBy key x b ys).1 hb with rfl | hb
      · exact le_of_lt hlt
      · exact hy b hb
    · rename_i hnlt
      push_neg at hnlt
      rw [List.pairwise_cons]
      refine ⟨fun b hb => ?_, List.pairwise_cons.2 ⟨hy, hys⟩⟩
      rcases List.mem_cons.1 hb with rfl | hb
      · exact hnlt
      · exact le_trans (hy b hb) hnlt

theorem perm_stableSortDescBy {α β : Type} [LinearOrder β] (key : α → β)
    (l : List α) : (stableSortDescBy key l).Perm l := by
  induction l with
  | nil => exact List.Perm.refl _
  | cons x xs ih =>
    exact (perm_insertDescBy key x (stableSortDescBy key xs)).trans (ih.cons x)

theorem pairwise_stableSortDescBy {α β : Type} [LinearOrder β] (key : α → β)
    (l : List α) :
    (stableSortDescBy key l).Pairwise fun a b => key b ≤ key a := by
  induction l with
  | nil => simp [stableSortDescBy]
  | cons x xs ih => exact pairwise_insertDescBy key x _ ih

theorem filter_insertDescBy {α β : Type} [LinearOrder β] (key : α → β) (x : α)
    (l : List α) (s : β) :
    (insertDescBy key x l).filter (fun a => decide (key a = s)) =
      if key x = s then x :: l.filter (fun a => decide (key a = s))
      else l.filter (fun a => decide (key a = s)) := by
  induction l with
  | nil =>
    by_cases hxs : key x = s <;> simp [insertDescBy, List.filter_cons, hxs]
  | cons y ys ih =>
    simp only [insertDescBy]
    split
    · rename_i hlt
      by_cases hys : key y = s
      · have hxs : ¬ key x = s := by
          intro hxs
          rw [hxs, hys] at hlt
          exact lt_irrefl _ hlt
        simp [List.filter_cons, hys, hxs, ih]
      · simp [List.filter_cons, hys, ih]
    · by_cases hxs : key x = s <;> by_cases hys : key y = s <;>
        simp [List.filter_cons, hxs, hys]

theorem filter_stableSortDescBy {α β : Type} [LinearOrder β] (key : α → β)
    (l : List α) (s : β) :
    (stableSortDescBy key l).filter (fun a => decide (key a = s)) =
      l.filter (fun a => decide (key a = s)) := by
  induction l with
  | nil => rfl
  | cons x xs ih =>
    simp only [stableSortDescBy, filter_insertDescBy, ih, List.filter]
    split <;> simp_all

/-! Lemmas about the association-list indices. -/

theorem bucketGet_bucketAdd_self {κ : Type} [DecidableEq κ]
    (idx : List (κ × List Nat)) (k : κ) (v : Nat) :
    bucketGet (bucketAdd idx k v) k = bucketGet idx k ++ [v] := by
  induction idx with
  | nil => simp [bucketAdd, bucketGet]
  | cons p rest ih =>
    obtain ⟨k₀, vs⟩ := p
    simp only [bucketAdd]
    split
    · rename_i hk
      simp [bucketGet, hk]
    · rename_i hk
      simp [bucketGet, hk, ih]

theorem bucketGet_bucketAdd_of_ne {κ : Type} [DecidableEq κ]
    (idx : List (κ × List Nat)) {k q : κ} (v : Nat) (h : q ≠ k) :
    bucketGet (bucketAdd idx k v) q = bucketGet idx q := by
  induction idx with
  | nil => simp [bucketAdd, bucketGet, h]
  | cons p rest ih =>
    obtain ⟨k₀, vs⟩ := p
    simp only [bucketAdd]
    split
    · rename_i hk
      subst hk
      simp [bucketGet, h]
    · by_cases hq : q = k₀ <;> simp [bucketGet, hq, ih]

/-! Lemmas tracking items and the type index through `add_message`. -/

theorem mem_tierItems_consolidateMemories {m : Memory} {it : MemoryItem}
    (h : it ∈ tierItems (consolidateMemories m)) : it ∈ tierItems m := by
  have hsub : it ∈ (stableSortDescBy memScore m.short_term).take (m.short_term_limit / 2) →
      it ∈ m.short_term := fun ha =>
    (perm_stableSortDescBy memScore m.short_term).mem_iff.1 (List.take_subset _ _ ha)
  simp only [tierItems, consolidateMemories, List.mem_append] at h ⊢
  tauto

theorem mem_tierItems_consolidateWorkingMemory {m : Memory} {it : MemoryItem}
    (h : it ∈ tierItems (consolidateWorkingMemory m)) : it ∈ tierItems m := by
  simp only [consolidateWorkingMemory] at h
  split at h
  · have := mem_tierItems_consolidateMemories h
    simp only [tierItems, List.mem_append] at this ⊢
    tauto
  · simp only [tierItems, List.mem_append] at h ⊢
    tauto

theorem addToLongTerm_fst (m : Memory) (it : MemoryItem) :
    (addToLongTerm m it).1 = { m with long_term := m.long_term ++ [it] } := by
  simp only [addToLongTerm]
  split <;> rfl

theorem mem_tierItems_placeItem {m : Memory} {itm it : MemoryItem} {imp : ℚ}
    (h : it ∈ tierItems (placeItem m itm imp).1) :
    it ∈ tierItems m ∨ it = itm := by
  simp only [placeItem] at h
  split at h
  · rw [addToLongTerm_fst] at h
    simp only [tierItems, List.mem_append, List.mem_singleton] at h ⊢
    tauto
  · split at h
    · simp only [tierItems, List.mem_append, List.mem_singleton] at h ⊢
      tauto
    · have hshape : tierItems { consolidateWorkingMemory m with
          working_memory := (consolidateWorkingMemory m).working_memory ++ [itm] } =
          (consolidateWorkingMemory m).working_memory ++ [itm] ++
            ((consolidateWorkingMemory m).short_term ++ (consolidateWorkingMemory m).long_term) := by
        simp [tierItems]
      rw [hshape] at h
      simp only [List.mem_append, List.mem_singleton] at h
      rcases h with (h | rfl) | h
      · exact Or.inl (mem_tierItems_consolidateWorkingMemory
          (by simp only [tierItems, List.mem_append]; tauto))
      · exact Or.inr rfl
      · exact Or.inl (mem_tierItems_consolidateWorkingMemory
          (by simp only [tierItems, List.mem_append]; tauto))

theorem type_index_consolidateWorkingMemory (m : Memory) :
    (consolidateWorkingMemory m).type_index = m.type_index := by
  simp only [consolidateWorkingMemory]
  split <;> rfl

theorem type_index_placeItem (m : Memory) (itm : MemoryItem) (imp : ℚ) :
    (placeItem m itm imp).1.type_index = m.type_index := by
  simp only [placeItem]
  split
  · rw [addToLongTerm_fst]
  · split
    · rfl
    · exact type_index_consolidateWorkingMemory m

theorem type_index_updateIndices (m : Memory) (it : MemoryItem) :
    (updateIndices m it).type_index = bucketAdd m.type_index it.metadata.type it.memory_id :=
  rfl

theorem mem_tierItems_addMessage {m : Memory} {msg : Message} {imp : ℚ}
    {it : MemoryItem} (h : it ∈ tierItems (addMessage m msg imp).1) :
    it ∈ tierItems m ∨ it = mkMemoryItem m msg imp := by
  simp only [addMessage] at h
  split at h <;>
  · rcases mem_tierItems_placeItem h with h2 | h2
    · exact Or.inl h2
    · exact Or.inr h2

theorem addMessage_type_index {m : Memory} {msg : Message} {imp : ℚ}
    (h : (addMessage m msg imp).2 = true) :
    (addMessage m msg imp).1.type_index =
      bucketAdd m.type_index msg.metadata.type m.clock := by
  simp only [addMessage] at h ⊢
  split
  · rw [show ∀ m' : Memory, (finishAdd m' (mkMemoryItem m msg imp)).type_index =
        bucketAdd m'.type_index (mkMemoryItem m msg imp).metadata.type
          (mkMemoryItem m msg imp).memory_id from fun _ => rfl]
    rw [type_index_placeItem]
    rfl
  · rename_i hfalse
    rw [if_neg hfalse] at h
    simp at h

theorem indexedInv_addMessage {m : Memory} {msg : Message} {imp : ℚ}
    (h₀ : IndexedInv m) (hok : (addMessage m msg imp).2 = true) :
    IndexedInv (addMessage m msg imp).1 := by
  intro it hmem
  rcases mem_tierItems_addMessage hmem with hold | rfl
  · have hbucket := h₀ it hold
    rw [addMessage_type_index hok]
    by_cases hty : it.metadata.type = msg.metadata.type
    · rw [hty] at hbucket
      rw [hty, bucketGet_bucketAdd_self]
      exact List.mem_append_left _ hbucket
    · rw [bucketGet_bucketAdd_of_ne m.type_index m.clock hty]
      exact hbucket
  · rw [addMessage_type_index hok]
    rw [show (mkMemoryItem m msg imp).metadata.type = msg.metadata.type from rfl,
      bucketGet_bucketAdd_self]
    exact List.mem_append_right _ (by simp [mkMemoryItem])

instance (m : Memory) : Decidable (IndexedInv m) :=
  inferInstanceAs (Decidable
    (∀ it ∈ tierItems m, it.memory_id ∈ bucketGet m.type_index it.metadata.type))

/-! The claims. -/

unseal Rat.mul Rat.add Rat.inv in
/-- C1: the claim that every tier length is at most its configured
capacity immediately after every `add_message` return FAILS on the
code.  With limits (working 1, short 2, long 1), six low-importance
inserts all return normally, yet afterwards the long-term tier holds 2
items: `_consolidate_memories` extends long-term with no capacity
check (and the `_forget_least_important` overflow handler that
`_add_to_long_term` would call does not exist). -/
theorem c1_long_term_overflow :
    (runAdds memC1 inputsC1).2 = true ∧
    (runAdds memC1 inputsC1).1.long_term_limit = 1 ∧
    (runAdds memC1 inputsC1).1.long_term.length = 2 := by
  refine ⟨by decide, by decide, by decide⟩

unseal Rat.mul Rat.add Rat.inv in
/-- C2: the claim that `add_message` always succeeds FAILS on the
code.  With `long_term_limit = 1`, the second insert at importance
`0.9 ≥ 0.7` pushes long-term past its limit, and `_add_to_long_term`
calls `self._forget_least_important()`, a method that does not exist,
raising `AttributeError` (the `false` flag); the item is nevertheless
already appended, so long-term is left holding 2 items. -/
theorem c2_add_message_raises :
    (runAdds memC2 inputsC2).2 = false ∧
    (runAdds memC2 inputsC2).1.long_term.length = 2 ∧
    (runAdds memC2 inputsC2).1.long_term_limit = 1 := by
  refine ⟨by decide, by decide, by decide⟩

unseal Rat.mul Rat.add Rat.inv in
/-- C3 (counterexample): the if-and-only-if between tier presence and
type-index presence FAILS.  With limits (working 1, short 2), four
successful low-importance inserts trigger a consolidation that drops
the item with memory id 1; its id remains in the `chat` bucket of the
type index although the item is no longer in any tier — an orphaned
index entry. -/
theorem c3_orphaned_index_entry :
    (runAdds memC3 inputsC3).2 = true ∧
    (1 : Nat) ∈ bucketGet (runAdds memC3 inputsC3).1.type_index MessageType.chat ∧
    (1 : Nat) ∉ tierIds (runAdds memC3 inputsC3).1 := by
  refine ⟨by decide, by decide, by decide⟩

/-- C3 (amended): one direction does hold — after any sequence of
successful `add_message` calls from a store satisfying the stored →
indexed invariant (e.g. a fresh store), every item present in any tier
has its memory id in the type-index bucket of its message type; the
converse direction is refuted by `c3_orphaned_index_entry`. -/
theorem c3_stored_implies_indexed (m₀ : Memory) (l : List (Message × ℚ))
    (h₀ : IndexedInv m₀) (h : (runAdds m₀ l).2 = true) :
    IndexedInv (runAdds m₀ l).1 := by
  induction l generalizing m₀ with
  | nil => exact h₀
  | cons p rest ih =>
    simp only [runAdds, Bool.and_eq_true] at h ⊢
    exact ih _ (indexedInv_addMessage h₀ h.1) h.2

unseal Rat.mul Rat.add Rat.inv in
/-- Witness for `c3_stored_implies_indexed` at the empty store and a
single insert. -/
theorem c3_stored_implies_indexed_witness :
    IndexedInv ({} : Memory) ∧ (runAdds ({} : Memory) [(msgA, 0)]).2 = true ∧
      IndexedInv (runAdds ({} : Memory) [(msgA, 0)]).1 :=
  ⟨by decide, by decide,
    c3_stored_implies_indexed {} [(msgA, 0)] (by decide) (by decide)⟩

unseal Rat.mul Rat.add Rat.inv in
/-- C7: the claim that `Stopped` is absorbing FAILS on the code.  A
`receive_message` call on a stopped agent does return no reply and
leaves `total_memories` unchanged, but the `finally` clause (which
resets every non-`ERROR` state to `IDLE`) runs even after the early
`STOPPED` return, so the state after the call is `IDLE`, not
`STOPPED` — and the very next `receive_message` call is processed
normally, storing the message (`total_memories` becomes 1). -/
theorem c7_stopped_not_absorbing :
    (receiveMessage stoppedAgent none msgA).2 = none ∧
    (receiveMessage stoppedAgent none msgA).1.memory.total_memories
      = stoppedAgent.memory.total_memories ∧
    (receiveMessage stoppedAgent none msgA).1.state = AgentState.idle ∧
    (receiveMessage (receiveMessage stoppedAgent none msgA).1 none msgA).1.memory.total_memories
      = stoppedAgent.memory.total_memories + 1 := by
  refine ⟨by decide, by decide, by decide, by decide⟩

/-- The emotion analysis used by the C9 counterexample: the LLM
reports emotion "joy" at intensity `0.5`. -/
def analysisC9 : EmotionAnalysis := { emotion := some "joy", intensity := 1/2 }

unseal Rat.mul Rat.add Rat.inv in
/-- C9 (counterexample): importance scoring is NOT pure with respect
to the message.  When an LLM is configured and the emotion analysis
succeeds with an `emotion` key, `_evaluate_message_importance` appends
that emotion to the metadata of the incoming message, so the message
observed after scoring differs from the one passed in. -/
theorem c9_scoring_mutates_message :
    (evaluateMessageImportance (some analysisC9) "Bob" msgA).1 ≠ msgA := by
  decide

/-- C9 (amended): importance scoring is total, returns a value in
`[0.1, 1] ⊆ [0, 1]`, and leaves every part of the message unchanged
except that a successful emotion analysis may append exactly one
emotion tag. -/
theorem c9_scoring_bounded_total (analysis : Option EmotionAnalysis)
    (selfName : String) (msg : Message) :
    (1/10 : ℚ) ≤ (evaluateMessageImportance analysis selfName msg).2 ∧
    (evaluateMessageImportance analysis selfName msg).2 ≤ 1 ∧
    (evaluateMessageImportance analysis selfName msg).1.sender = msg.sender ∧
    (evaluateMessageImportance analysis selfName msg).1.content = msg.content ∧
    (evaluateMessageImportance analysis selfName msg).1.receiver = msg.receiver ∧
    (evaluateMessageImportance analysis selfName msg).1.message_id = msg.message_id ∧
    (evaluateMessageImportance analysis selfName msg).1.metadata.type = msg.metadata.type ∧
    (evaluateMessageImportance analysis selfName msg).1.metadata.priority
      = msg.metadata.priority ∧
    (evaluateMessageImportance analysis selfName msg).1.metadata.topic_tags
      = msg.metadata.topic_tags ∧
    ((evaluateMessageImportance analysis selfName msg).1.metadata.emotion_tags
        = msg.metadata.emotion_tags ∨
      ∃ e, (evaluateMessageImportance analysis selfName msg).1.metadata.emotion_tags
        = msg.metadata.emotion_tags ++ [e]) := by
  have hclamp : ∀ x : ℚ, (1/10 : ℚ) ≤ max (1/10) (min 1 x) ∧ max (1/10) (min 1 x) ≤ 1 :=
    fun x => ⟨le_max_left _ _, max_le (by norm_num) (min_le_left _ _)⟩
  rcases analysis with _ | ⟨emo, inten⟩
  · exact ⟨(hclamp _).1, (hclamp _).2, rfl, rfl, rfl, rfl, rfl, rfl, rfl, Or.inl rfl⟩
  · rcases emo with _ | e
    · exact ⟨(hclamp _).1, (hclamp _).2, rfl, rfl, rfl, rfl, rfl, rfl, rfl, Or.inl rfl⟩
    · exact ⟨(hclamp _).1, (hclamp _).2, rfl, rfl, rfl, rfl, rfl, rfl, rfl, Or.inr ⟨e, rfl⟩⟩

theorem consolidateWorkingMemory_update (m : Memory) (mm : List (Nat × MemoryItem))
    (mt : List (MessageType × Nat)) (c : Nat) :
    consolidateWorkingMemory { m with memory_map := mm, memory_types := mt, clock := c } =
      { consolidateWorkingMemory m with memory_map := mm, memory_types := mt, clock := c } := by
  by_cases h : m.short_term_limit < (m.short_term ++ m.working_memory).length
  · dsimp only [consolidateWorkingMemory, consolidateMemories]
    rw [if_pos h, if_pos h]
  · dsimp only [consolidateWorkingMemory, consolidateMemories]
    rw [if_neg h, if_neg h]

theorem working_consolidateWorkingMemory (m : Memory) :
    (consolidateWorkingMemory m).working_memory = [] := by
  dsimp only [consolidateWorkingMemory, consolidateMemories]
  split <;> rfl

/-- C5: the placement rule of `add_message` holds as claimed (and it
holds whether or not the long-term insert subsequently raises, since
the append to long-term happens before the missing-method call): an
importance at or above the threshold sends the new item directly to
long-term, leaving working and short-term untouched; otherwise, with
spare working capacity the item is appended to working memory with the
other tiers untouched; otherwise working memory is first consolidated
into short-term (so working memory ends up holding exactly the new
item) and short-term/long-term are those produced by the
consolidation. -/
theorem c5_placement_rule (m : Memory) (msg : Message) (imp : ℚ) :
    (addMessage m msg imp).1.working_memory =
      (if m.importance_threshold ≤ imp then m.working_memory
       else if m.working_memory.length < m.working_memory_limit then
         m.working_memory ++ [mkMemoryItem m msg imp]
       else [mkMemoryItem m msg imp]) ∧
    (addMessage m msg imp).1.short_term =
      (if m.importance_threshold ≤ imp then m.short_term
       else if m.working_memory.length < m.working_memory_limit then m.short_term
       else (consolidateWorkingMemory m).short_term) ∧
    (addMessage m msg imp).1.long_term =
      (if m.importance_threshold ≤ imp then m.long_term ++ [mkMemoryItem m msg imp]
       else if m.working_memory.length < m.working_memory_limit then m.long_term
       else (consolidateWorkingMemory m).long_term) := by
  dsimp only [addMessage, placeItem]
  by_cases h1 : m.importance_threshold ≤ imp
  · simp only [if_pos h1]
    rw [addToLongTerm_fst]
    split <;> exact ⟨rfl, rfl, rfl⟩
  · by_cases h2 : m.working_memory.length < m.working_memory_limit
    · simp only [if_neg h1, if_pos h2]
      exact ⟨rfl, rfl, rfl⟩
    · simp only [if_neg h1, if_neg h2]
      rw [consolidateWorkingMemory_update]
      refine ⟨?_, rfl, rfl⟩
      show (consolidateWorkingMemory m).working_memory ++ [mkMemoryItem m msg imp] = _
      rw [working_consolidateWorkingMemory]
      rfl

/-- A short-term item of importance `0.5` (for the C4 witness). -/
def itemA : MemoryItem :=
  { content := msgA, timestamp := 0, importance := 1/2,
    metadata := { sender := "Alice", receiver := none, type := .chat, priority := .normal },
    tags := [], reference_count := 0, last_accessed := 0, memory_id := 0 }

/-- A short-term item of importance `0.75` (for the C4 witness). -/
def itemB : MemoryItem :=
  { content := msgA, timestamp := 1, importance := 3/4,
    metadata := { sender := "Alice", receiver := none, type := .chat, priority := .normal },
    tags := [], reference_count := 0, last_accessed := 1, memory_id := 1 }

/-- A short-term item of importance `0.25` (for the C4 witness). -/
def itemC : MemoryItem :=
  { content := msgA, timestamp := 2, importance := 1/4,
    metadata := { sender := "Alice", receiver := none, type := .chat, priority := .normal },
    tags := [], reference_count := 0, last_accessed := 2, memory_id := 2 }

/-- A store whose short-term tier is over its limit, so that the next
working-memory consolidation triggers short-term consolidation. -/
def memC4 : Memory := { short_term := [itemA, itemB, itemC], short_term_limit := 2 }

/-- C4: when short-term consolidation triggers (the merged short-term
list exceeds `short_term_limit`), the items are stably sorted by
`importance*0.7 + reference_count*0.3` descending; the top
`short_term_limit / 2` of the sorted list is appended to long-term,
the `forgotten_memories` counter grows by the number of remaining
(dropped) items, and the consolidation counter is incremented by one.
The sort is genuinely descending (adjacent scores non-increasing),
stable (for every score value, the sub-list of items with that score
equals the one in the original order) and a permutation of the input,
so the promoted set is deterministic. -/
theorem c4_short_term_consolidation (m : Memory)
    (h : m.short_term_limit < (m.short_term ++ m.working_memory).length) :
    (consolidateWorkingMemory m).long_term =
      m.long_term ++ (stableSortDescBy memScore (m.short_term ++ m.working_memory)).take
        (m.short_term_limit / 2) ∧
    (consolidateWorkingMemory m).short_term =
      (stableSortDescBy memScore (m.short_term ++ m.working_memory)).take
        (m.short_term_limit / 2) ∧
    (consolidateWorkingMemory m).forgotten_memories =
      m.forgotten_memories + ((stableSortDescBy memScore (m.short_term ++ m.working_memory)).drop
        (m.short_term_limit / 2)).length ∧
    (consolidateWorkingMemory m).consolidation_count = m.consolidation_count + 1 ∧
    (stableSortDescBy memScore (m.short_term ++ m.working_memory)).Pairwise
      (fun a b => memScore b ≤ memScore a) ∧
    (∀ s : ℚ, (stableSortDescBy memScore (m.short_term ++ m.working_memory)).filter
        (fun x => decide (memScore x = s)) =
      (m.short_term ++ m.working_memory).filter (fun x => decide (memScore x = s))) ∧
    (stableSortDescBy memScore (m.short_term ++ m.working_memory)).Perm
      (m.short_term ++ m.working_memory) := by
  have hcwm : consolidateWorkingMemory m =
      consolidateMemories { m with short_term := m.short_term ++ m.working_memory,
                                   working_memory := [] } := by
    dsimp only [consolidateWorkingMemory]
    rw [if_pos h]
  rw [hcwm]
  exact ⟨rfl, rfl, rfl, rfl, pairwise_stableSortDescBy _ _,
    fun s => filter_stableSortDescBy _ _ s, perm_stableSortDescBy _ _⟩

/-- Witness for `c4_short_term_consolidation` at a concrete
three-item, limit-two store. -/
theorem c4_short_term_consolidation_witness :
    memC4.short_term_limit < (memC4.short_term ++ memC4.working_memory).length ∧
    ((consolidateWorkingMemory memC4).long_term =
      memC4.long_term ++ (stableSortDescBy memScore (memC4.short_term ++ memC4.working_memory)).take
        (memC4.short_term_limit / 2) ∧
    (consolidateWorkingMemory memC4).short_term =
      (stableSortDescBy memScore (memC4.short_term ++ memC4.working_memory)).take
        (memC4.short_term_limit / 2) ∧
    (consolidateWorkingMemory memC4).forgotten_memories =
      memC4.forgotten_memories +
        ((stableSortDescBy memScore (memC4.short_term ++ memC4.working_memory)).drop
          (memC4.short_term_limit / 2)).length ∧
    (consolidateWorkingMemory memC4).consolidation_count = memC4.consolidation_count + 1 ∧
    (stableSortDescBy memScore (memC4.short_term ++ memC4.working_memory)).Pairwise
      (fun a b => memScore b ≤ memScore a) ∧
    (∀ s : ℚ, (stableSortDescBy memScore (memC4.short_term ++ memC4.working_memory)).filter
        (fun x => decide (memScore x = s)) =
      (memC4.short_term ++ memC4.working_memory).filter (fun x => decide (memScore x = s))) ∧
    (stableSortDescBy memScore (memC4.short_term ++ memC4.working_memory)).Perm
      (memC4.short_term ++ memC4.working_memory)) :=
  ⟨by decide, c4_short_term_consolidation memC4 (by decide)⟩

/-- A working-memory item with timestamp 3 (for the C6 witness). -/
def itemD : MemoryItem :=
  { content := mkMessage "Alice" "first" 3, timestamp := 3, importance := 0,
    metadata := { sender := "Alice", receiver := none, type := .chat, priority := .normal },
    tags := [], reference_count := 0, last_accessed := 3, memory_id := 3 }

/-- A long-term item with timestamp 4 (for the C6 witness). -/
def itemE : MemoryItem :=
  { content := mkMessage "Bob" "second" 4, timestamp := 4, importance := 9/10,
    metadata := { sender := "Bob", receiver := none, type := .chat, priority := .normal },
    tags := [], reference_count := 0, last_accessed := 4, memory_id := 4 }

/-- A store with one working-memory item and one long-term item. -/
def memC6 : Memory := { working_memory := [itemD], long_term := [itemE] }

/-- C6: the recent-retrieval operation (modelled from the spec, since
`get_recent_context` is called by `Agent._generate_response` but
defined nowhere in the repository) returns at most `n` messages; an
`n ≤ 0` argument yields the empty sequence (not an error); the
selected items are in chronological order (insertion timestamps
non-decreasing, oldest first); the result is exactly the message view
of those items; and every selected item is drawn from the tiers of the
store. -/
theorem c6_recent_retrieval (m : Memory) (n : Int) :
    (getRecentContext m n).length ≤ n.toNat ∧
    (n ≤ 0 → getRecentContext m n = []) ∧
    (getRecentItems m n).Pairwise (fun a b => a.timestamp ≤ b.timestamp) ∧
    getRecentContext m n = (getRecentItems m n).map (fun it => it.content) ∧
    (∀ it ∈ getRecentItems m n, it ∈ tierItems m) := by
  refine ⟨?_, ?_, ?_, rfl, ?_⟩
  · simp only [getRecentContext, getRecentItems, List.length_map, List.length_reverse,
      List.length_take]
    exact min_le_left _ _
  · intro hn
    simp only [getRecentContext, getRecentItems, Int.toNat_of_nonpos hn, List.take_zero,
      List.reverse_nil, List.map_nil]
  · rw [getRecentItems, List.pairwise_reverse]
    exact (pairwise_stableSortDescBy (fun it => it.timestamp) (tierItems m)).sublist
      (List.take_sublist _ _)
  · intro it hit
    rw [getRecentItems, List.mem_reverse] at hit
    exact (perm_stableSortDescBy (fun it => it.timestamp) (tierItems m)).mem_iff.1
      (List.take_subset _ _ hit)

/-- Witness for `c6_recent_retrieval` at a concrete two-item store
with `n = 2`. -/
theorem c6_recent_retrieval_witness :
    (getRecentContext memC6 2).length ≤ (2 : Int).toNat ∧
    ((2 : Int) ≤ 0 → getRecentContext memC6 2 = []) ∧
    (getRecentItems memC6 2).Pairwise (fun a b => a.timestamp ≤ b.timestamp) ∧
    getRecentContext memC6 2 = (getRecentItems memC6 2).map (fun it => it.content) ∧
    (∀ it ∈ getRecentItems memC6 2, it ∈ tierItems memC6) :=
  c6_recent_retrieval memC6 2

theorem collectResponse_eq_some (sender : String) (receiver : Option String)
    (n : String) (o : TaskOutcome) (q : String × String) :
    collectResponse sender receiver (n, o) = some q ↔
      (q.1 = n ∧ o = TaskOutcome.replied (some q.2) ∧
        eligible sender receiver n = true ∧ q.2 ≠ "") := by
  obtain ⟨qn, qr⟩ := q
  by_cases he : eligible sender receiver n = true
  · cases o with
    | replied ro =>
      cases ro with
      | none => simp [collectResponse, he]
      | some rep =>
        by_cases hr : rep = ""
        · subst hr
          simp [collectResponse, he]
          rintro rfl rfl
          simp
        · simp [collectResponse, he, hr]
          constructor
          · rintro ⟨rfl, rfl⟩
            exact ⟨rfl, rfl, hr⟩
          · rintro ⟨rfl, rfl, -⟩
            exact ⟨rfl, rfl⟩
    | raised => simp [collectResponse, he]
    | timedOut => simp [collectResponse, he]
  · simp [collectResponse, he]

/-- C8: the reply map of a broadcast contains an entry `(name, rep)`
exactly when `name` is an eligible participant (not the sender,
matching the explicit receiver when there is one) whose fan-out task
completed before the deadline with a non-empty, non-`None` reply;
participants that timed out, raised inside `receive_message` (which
`_get_character_response` converts to a `None` reply), or produced an
empty reply are simply absent, never present as empty entries.
Moreover collection is isolated per participant: the map decomposes
entrywise over the character list, so changing one participant's
outcome cannot disturb the entries collected for the others. -/
theorem c8_broadcast_replies (chars : List (String × TaskOutcome)) (sender : String)
    (receiver : Option String) :
    (∀ name rep, (name, rep) ∈ broadcastAsync chars sender receiver ↔
      ((name, TaskOutcome.replied (some rep)) ∈ chars ∧
        eligible sender receiver name = true ∧ rep ≠ "")) ∧
    (∀ xs ys p o, chars = xs ++ (p, o) :: ys →
      broadcastAsync chars sender receiver =
        broadcastAsync xs sender receiver ++ broadcastAsync [(p, o)] sender receiver ++
          broadcastAsync ys sender receiver) := by
  constructor
  · intro name rep
    constructor
    · intro hmem
      rw [broadcastAsync, List.mem_filterMap] at hmem
      obtain ⟨⟨n₀, o₀⟩, hin, hsome⟩ := hmem
      rw [collectResponse_eq_some] at hsome
      obtain ⟨h1, h2, h3, h4⟩ := hsome
      dsimp only at h1 h2 h4
      subst h1
      subst h2
      exact ⟨hin, h3, h4⟩
    · rintro ⟨hin, he, hr⟩
      rw [broadcastAsync, List.mem_filterMap]
      exact ⟨(name, TaskOutcome.replied (some rep)), hin,
        (collectResponse_eq_some sender receiver name _ (name, rep)).2 ⟨rfl, rfl, he, hr⟩⟩
  · rintro xs ys p o rfl
    simp only [broadcastAsync]
    rw [show xs ++ (p, o) :: ys = xs ++ ([(p, o)] ++ ys) from rfl]
    rw [List.filterMap_append, List.filterMap_append, List.append_assoc]

/-- The character list used by the C8 witness: an eligible replier, a
raiser, a straggler cancelled at the deadline, an empty-reply actor
and the sender itself. -/
def charsC8 : List (String × TaskOutcome) :=
  [("Bob", .replied (some "hi")), ("Carol", .raised), ("Dave", .timedOut),
   ("Erin", .replied (some "")), ("Alice", .replied (some "self"))]

/-- Witness for `c8_broadcast_replies` on a concrete five-participant
scene broadcast from "Alice". -/
theorem c8_broadcast_replies_witness :
    (∀ name rep, (name, rep) ∈ broadcastAsync charsC8 "Alice" none ↔
      ((name, TaskOutcome.replied (some rep)) ∈ charsC8 ∧
        eligible "Alice" none name = true ∧ rep ≠ "")) ∧
    (∀ xs ys p o, charsC8 = xs ++ (p, o) :: ys →
      broadcastAsync charsC8 "Alice" none =
        broadcastAsync xs "Alice" none ++ broadcastAsync [(p, o)] "Alice" none ++
          broadcastAsync ys "Alice" none) :=
  c8_broadcast_replies charsC8 "Alice" none

/-- C10: with `limit = 0` (Python falsiness of `0`) the whole
participant-filtered history is returned, exactly as with
`limit = None`; with a positive `limit = k` the returned sequence is
exactly the suffix of the filtered history of length
`min k (length)` — the last `k` matching messages, in order. -/
theorem c10_history_limit_zero (history : List Message) (cname : Option String)
    (k : Int) (hk : 0 < k) :
    getDialogueHistory history (some 0) cname = getDialogueHistory history none cname ∧
    (getDialogueHistory history (some k) cname).length =
      min k.toNat (getDialogueHistory history none cname).length ∧
    getDialogueHistory history (some k) cname =
      (getDialogueHistory history none cname).drop
        ((getDialogueHistory history none cname).length - k.toNat) := by
  have hk0 : k ≠ 0 := ne_of_gt hk
  have hneg : ¬ (0 : Int) ≤ -k := by omega
  simp only [getDialogueHistory]
  generalize filterByCharacter history cname = F
  refine ⟨by simp, ?_, ?_⟩
  · rw [if_pos hk0, pySliceFrom, if_neg hneg, List.length_drop]
    simp only [neg_neg]
    omega
  · rw [if_pos hk0, pySliceFrom, if_neg hneg]
    simp only [neg_neg]
    congr 1
    omega

/-- The dialogue history used by the C10 witness. -/
def historyC10 : List Message :=
  [mkMessage "Alice" "one" 0, mkMessage "Bob" "two" 1, mkMessage "Alice" "three" 2]

/-- Witness for `c10_history_limit_zero` on a three-message history
with `limit = 2` and no participant filter. -/
theorem c10_history_limit_zero_witness :
    (0 : Int) < 2 ∧
    (getDialogueHistory historyC10 (some 0) none = getDialogueHistory historyC10 none none ∧
    (getDialogueHistory historyC10 (some 2) none).length =
      min (2 : Int).toNat (getDialogueHistory historyC10 none none).length ∧
    getDialogueHistory historyC10 (some 2) none =
      (getDialogueHistory historyC10 none none).drop
        ((getDialogueHistory historyC10 none none).length - (2 : Int).toNat)) :=
  ⟨by decide, c10_history_limit_zero historyC10 none 2 (by decide)⟩

end RolePlay
